import Mathlib

/-!
# cert-manager-webhook-regery: a verification development of `main.go`

The Go program is embedded shallowly.  A Go `string` (and a `[]byte`) is a
finite sequence of bytes; it is modelled as a `List Char` in which every
element stands for one byte.  All string operations used by the program
(`len`, slicing, `+`, `strings.HasSuffix`, `strings.TrimSuffix`) act on the
sequence position-wise, so the model is exact.
-/

set_option autoImplicit false

namespace Regery

/-- Go `string`: a finite byte sequence. -/
abbrev Str := List Char

/-- Go `[]byte`. -/
abbrev Bytes := List Char

/-- Go `error`: `none` is `nil`, `some m` is an error whose `Error()` text is `m`. -/
abbrev error := Option Str

/-- Go `strings.HasSuffix(s, suffix)`:
`len(s) >= len(suffix) && s[len(s)-len(suffix):] == suffix`. -/
def HasSuffix (s suffix : Str) : Bool :=
  decide (s.length ≥ suffix.length) && (s.drop (s.length - suffix.length) == suffix)

/-- Go `strings.TrimSuffix(s, suffix)`:
`if HasSuffix(s, suffix) { return s[:len(s)-len(suffix)] }; return s`. -/
def TrimSuffix (s suffix : Str) : Str :=
  if HasSuffix s suffix then s.take (s.length - suffix.length) else s

/-- Function `extractRecordName` (main.go, lines 167-180). -/
def extractRecordName (fqdn zone : Str) : Str :=
  -- Trim trailing dots, if any
  let fqdn := TrimSuffix fqdn ".".toList
  let zone := TrimSuffix zone ".".toList
  -- Remove the zone from the FQDN, if present
  if HasSuffix fqdn zone then
    let label := fqdn.take (fqdn.length - zone.length)
    let label := TrimSuffix label ".".toList
    label
  else
    fqdn

/-! ## Data model -/

/-- Type `Config` (main.go, lines 24-26). -/
structure Config where
  ApiUrl : Str
  ApiKey : Str
  ApiSecret : Str
deriving DecidableEq

/-- Type `regeryDNSProviderConfig` (main.go, lines 42-44). -/
structure regeryDNSProviderConfig where
  SecretRef : Str
deriving DecidableEq

/-- The fields of `v1alpha1.ChallengeRequest` that the program reads.  `Config`
is the `*extapi.JSON` pointer: `none` is `nil`, `some raw` carries `Raw`. -/
structure ChallengeRequest where
  ResourceNamespace : Str
  ResolvedZone : Str
  ResolvedFQDN : Str
  Key : Str
  Config : Option Bytes

/-- The `Data` field of a secret, a Go `map[string][]byte`: `none` means that
the key has no entry. -/
abbrev SecretData := Str → Option Bytes

/-- What the program uses of `*kubernetes.Clientset`:
`CoreV1().Secrets(namespace).Get(ctx, name, opts)`, yielding the secret data
or the error of the lookup. -/
structure Clientset where
  SecretsGet : Str → Str → Except Str SecretData

/-- Type `regeryDNSProviderSolver` (main.go, lines 38-40); `client` is a pointer that
is `nil` until `Initialize` has stored a client. -/
structure regeryDNSProviderSolver where
  client : Option Clientset

/-- A Go `map[string]string` literal, as its entries. -/
abbrev Record := List (Str × Str)

/-- The `map[string]interface{}` built by `Present` and `CleanUp`; every value
in it is a `[]map[string]string`. -/
abbrev Payload := List (Str × List Record)

/-- What the program fixes of an `*http.Request`. -/
structure Request where
  Method : Str
  URL : Str
  Header : List (Str × Str)
  Body : Bytes
deriving DecidableEq

/-- What the program reads of an `*http.Response`: `Body` is what `io.ReadAll`
yields (its error is dropped by the program), `CloseErr` what `Body.Close()`
returns. -/
structure Response where
  StatusCode : Nat
  Status : Str
  Body : Bytes
  CloseErr : error

/-- Library calls and the outside world, as the program sees them. -/
structure Env where
  -- the verb `%q` of `fmt` on a string
  Quote : Str → Str
  -- `json.Unmarshal(raw, &cfg)` on a zero `cfg`: the filled `cfg` and the error
  Unmarshal : Bytes → regeryDNSProviderConfig × error
  -- `json.Marshal(payload)`
  Marshal : Payload → Except Str Bytes
  -- the error of `http.NewRequestWithContext(ctx, method, url, body)`
  NewRequest : Str → Str → error
  -- `client.Do(req)`
  Do : Request → Except Str Response

/-- How a call ends: it returns to its caller, it panics, or the process is
terminated (`klog.Fatal`). -/
inductive Outcome (α : Type) where
  | returned (a : α)
  | panicked
  | exited
deriving DecidableEq

/-- A run of a function that may talk to the DNS API: the requests handed to
`client.Do`, in order, and how the call ended. -/
structure Exec (α : Type) where
  sent : List Request
  outcome : Outcome α
deriving DecidableEq

/-! ## The program -/

/-- Function `stringFromSecretData` (main.go, lines 50-56). -/
def stringFromSecretData (env : Env) (secretData : SecretData) (key : Str) : Str × error :=
  match secretData key with
  | none => ([], some ("key ".toList ++ env.Quote key ++ " not found in secret data".toList))
  | some data => (data, none)

/-- Function `loadConfig` (main.go, lines 230-240). -/
def loadConfig (env : Env) (cfgJSON : Option Bytes) : regeryDNSProviderConfig × error :=
  match cfgJSON with
  | none => ({ SecretRef := [] }, none)
  | some raw =>
    match env.Unmarshal raw with
    | (cfg, some err) => (cfg, some ("error decoding solver config: ".toList ++ err))
    | (cfg, none) => (cfg, none)

/-- Function `clientConfig` (main.go, lines 100-134).  Calling `CoreV1()` through a
`nil` client dereferences a nil pointer. -/
def clientConfig (env : Env) (c : regeryDNSProviderSolver) (ch : ChallengeRequest) :
    Outcome (Config × error) :=
  let config : Config := { ApiUrl := [], ApiKey := [], ApiSecret := [] }
  match loadConfig env ch.Config with
  | (_, some err) => .returned (config, some err)
  | (cfg, none) =>
    let config := { config with ApiUrl := "https://api.regery.com/v1".toList }
    let secretName := cfg.SecretRef
    match c.client with
    | none => .panicked
    | some client =>
      match client.SecretsGet ch.ResourceNamespace secretName with
      | .error err =>
        .returned (config, some ("unable to get secret `".toList ++ secretName ++ "/".toList
          ++ ch.ResourceNamespace ++ "`; ".toList ++ err))
      | .ok sec =>
        match stringFromSecretData env sec "api-key".toList with
        | (_, some err) =>
          .returned (config, some ("unable to get api-key from secret `".toList ++ secretName
            ++ "/".toList ++ ch.ResourceNamespace ++ "`; ".toList ++ err))
        | (apiKey, none) =>
          let config := { config with ApiKey := apiKey }
          match stringFromSecretData env sec "api-secret".toList with
          | (_, some err) =>
            .returned (config, some ("unable to get api-secret from secret `".toList
              ++ secretName ++ "/".toList ++ ch.ResourceNamespace ++ "`; ".toList ++ err))
          | (apiSecret, none) =>
            let config := { config with ApiSecret := apiSecret }
            .returned (config, none)

/-- Go `req.Header.Set(key, value)` for a key in canonical form. -/
def HeaderSet (h : List (Str × Str)) (key value : Str) : List (Str × Str) :=
  h.filter (fun kv => kv.1 != key) ++ [(key, value)]

/-- Function `callDnsApi` (main.go, lines 136-165).  The deferred function runs when the
call returns and ends the process when closing the body fails.  Both `nil`
and `[]byte{}` are the empty byte sequence. -/
def callDnsApi (env : Env) (url method : Str) (body : Bytes) (config : Config) :
    Exec (Bytes × error) :=
  match env.NewRequest method url with
  | some err => ⟨[], .returned ([], some ("unable to execute request ".toList ++ err))⟩
  | none =>
    let req : Request := { Method := method, URL := url, Header := [], Body := body }
    let req := { req with
      Header := HeaderSet req.Header "Content-Type".toList "application/json".toList }
    let req := { req with
      Header := HeaderSet req.Header "Authorization".toList
        (config.ApiKey ++ ":".toList ++ config.ApiSecret) }
    match env.Do req with
    | .error err => ⟨[req], .returned ([], some err)⟩
    | .ok resp =>
      let deferred (r : Outcome (Bytes × error)) : Outcome (Bytes × error) :=
        match resp.CloseErr with
        | some _ => .exited
        | none => r
      let respBody := resp.Body
      if resp.StatusCode = 200 then
        ⟨[req], deferred (.returned (respBody, none))⟩
      else
        let text := "Error calling API status:".toList ++ resp.Status ++ " url: ".toList ++ url
          ++ " method: ".toList ++ method
        ⟨[req], deferred (.returned ([], some text))⟩

/-- Method `Present` (main.go, lines 58-98); logging other than `klog.Fatal` has no
effect on the run. -/
def Present (env : Env) (c : regeryDNSProviderSolver) (ch : ChallengeRequest) : Exec error :=
  match clientConfig env c ch with
  | .panicked => ⟨[], .panicked⟩
  | .exited => ⟨[], .exited⟩
  | .returned (_, some err) =>
    ⟨[], .returned (some ("unable to get secret `".toList ++ ch.ResourceNamespace
      ++ "`; ".toList ++ err))⟩
  | .returned (config, none) =>
    let domain := TrimSuffix ch.ResolvedZone ".".toList
    let url := config.ApiUrl ++ "/domains/".toList ++ domain ++ "/records".toList
    let name := extractRecordName ch.ResolvedFQDN domain
    let payload : Payload :=
      [("records".toList,
        [[("type".toList, "TXT".toList),
          ("name".toList, name),
          ("value".toList, ch.Key),
          ("ttl".toList, "60".toList)]])]
    match env.Marshal payload with
    | .error err => ⟨[], .returned (some ("failed to marshal payload: ".toList ++ err))⟩
    | .ok body =>
      let r := callDnsApi env url "POST".toList body config
      match r.outcome with
      | .panicked => ⟨r.sent, .panicked⟩
      | .exited => ⟨r.sent, .exited⟩
      | .returned (_, some err) => ⟨r.sent, .returned (some err)⟩
      | .returned (_, none) => ⟨r.sent, .returned none⟩

/-- Method `CleanUp` (main.go, lines 182-215). -/
def CleanUp (env : Env) (c : regeryDNSProviderSolver) (ch : ChallengeRequest) : Exec error :=
  match clientConfig env c ch with
  | .panicked => ⟨[], .panicked⟩
  | .exited => ⟨[], .exited⟩
  | .returned (_, some err) =>
    ⟨[], .returned (some ("unable to get secret `".toList ++ ch.ResourceNamespace
      ++ "`; ".toList ++ err))⟩
  | .returned (config, none) =>
    let domain := TrimSuffix ch.ResolvedZone ".".toList
    let recordName := ch.ResolvedFQDN
    let recordName := extractRecordName recordName domain
    -- Build JSON payload for the DELETE request
    let payload : Payload :=
      [("records".toList,
        [[("type".toList, "TXT".toList),
          ("name".toList, recordName),
          ("value".toList, ch.Key)]])]
    match env.Marshal payload with
    | .error err =>
      ⟨[], .returned (some ("failed to marshal delete payload: ".toList ++ err))⟩
    | .ok body =>
      let url := config.ApiUrl ++ "/domains/".toList ++ domain ++ "/records".toList
      let r := callDnsApi env url "DELETE".toList body config
      match r.outcome with
      | .panicked => ⟨r.sent, .panicked⟩
      | .exited => ⟨r.sent, .exited⟩
      | .returned (_, some err) => ⟨r.sent, .returned (some err)⟩
      | .returned (_, none) => ⟨r.sent, .returned none⟩

/-! ## Concrete worlds used in the examples -/

/-- A stand-in for `json.Marshal` in concrete runs: the entries of a record as
`key=value;`, in the order given. -/
def renderRecord (r : Record) : Bytes :=
  (r.map (fun kv => kv.1 ++ "=".toList ++ kv.2 ++ ";".toList)).flatten

/-- A stand-in for `json.Marshal` in concrete runs: every member as
`key:[record|record|...]`. -/
def renderPayload (p : Payload) : Bytes :=
  (p.map (fun m => m.1 ++ ":[".toList ++ (m.2.map (fun r => renderRecord r ++ "|".toList)).flatten
    ++ "]".toList)).flatten

/-- A secret holding `api-key = K` and `api-secret = S`. -/
def secretKS : SecretData := fun key =>
  if key = "api-key".toList then some "K".toList
  else if key = "api-secret".toList then some "S".toList
  else none

/-- A solver whose client finds the secret `secretKS` under every name. -/
def solverKS : regeryDNSProviderSolver :=
  { client := some { SecretsGet := fun _ _ => .ok secretKS } }

/-- A solver on which `Initialize` never ran. -/
def solverNil : regeryDNSProviderSolver := { client := none }

/-- A world in which every library call succeeds and the provider answers
every request with the given status code and status text; closing the
response body yields `closeErr`. -/
def worldEnv (code : Nat) (status : Str) (closeErr : error) : Env :=
  { Quote := fun s => "\"".toList ++ s ++ "\"".toList
    Unmarshal := fun _ => ({ SecretRef := "regery-secret".toList }, none)
    Marshal := fun p => .ok (renderPayload p)
    NewRequest := fun _ _ => none
    Do := fun _ => .ok { StatusCode := code, Status := status, Body := [], CloseErr := closeErr } }

/-- The challenge of the scenario in the specification. -/
def challenge (zone fqdn : String) : ChallengeRequest :=
  { ResourceNamespace := "default".toList
    ResolvedZone := zone.toList
    ResolvedFQDN := fqdn.toList
    Key := "abc123".toList
    Config := none }

/-! ## Auxiliary definitions for the proofs -/

/-- What `Present` and `CleanUp` do once the credentials are resolved and the
payload is encoded: they hand the call to `callDnsApi` and pass its error on. -/
def relay (r : Exec (Bytes × error)) : Exec error :=
  match r.outcome with
  | .panicked => ⟨r.sent, .panicked⟩
  | .exited => ⟨r.sent, .exited⟩
  | .returned (_, some err) => ⟨r.sent, .returned (some err)⟩
  | .returned (_, none) => ⟨r.sent, .returned none⟩

/-! ## Facts about the two `strings` functions -/

theorem hasSuffix_iff (s suffix : Str) :
    HasSuffix s suffix = true ↔ ∃ p, s = p ++ suffix := by
  unfold HasSuffix
  constructor
  · intro h
    simp only [Bool.and_eq_true, decide_eq_true_eq, beq_iff_eq] at h
    refine ⟨s.take (s.length - suffix.length), ?_⟩
    conv_lhs => rw [← List.take_append_drop (s.length - suffix.length) s]
    rw [h.2]
  · rintro ⟨p, rfl⟩
    simp

theorem hasSuffix_append (p suffix : Str) : HasSuffix (p ++ suffix) suffix = true :=
  (hasSuffix_iff _ _).2 ⟨p, rfl⟩

theorem trimSuffix_append (p suffix : Str) : TrimSuffix (p ++ suffix) suffix = p := by
  unfold TrimSuffix
  rw [if_pos (hasSuffix_append p suffix)]
  simp

theorem take_append_sub (p suffix : Str) :
    (p ++ suffix).take ((p ++ suffix).length - suffix.length) = p := by
  simp

theorem hasSuffix_dot_iff (s : Str) :
    HasSuffix s ".".toList = true ↔ s.getLast? = some '.' := by
  rw [hasSuffix_iff]
  constructor
  · rintro ⟨p, rfl⟩
    simp
  · intro h
    obtain ⟨p, hp⟩ := List.getLast?_eq_some_iff.1 h
    exact ⟨p, hp⟩

theorem trimSuffix_of_not (s suffix : Str) (h : HasSuffix s suffix = false) :
    TrimSuffix s suffix = s := by
  unfold TrimSuffix
  simp [h]

theorem trimSuffix_dot_of_getLast (s : Str) (h : s.getLast? ≠ some '.') :
    TrimSuffix s ".".toList = s := by
  apply trimSuffix_of_not
  cases hs : HasSuffix s ".".toList
  · rfl
  · exact absurd ((hasSuffix_dot_iff s).1 hs) h

/-- Every string is its `TrimSuffix` followed by nothing or by the suffix. -/
theorem trimSuffix_cases (s suffix : Str) :
    s = TrimSuffix s suffix ∨ s = TrimSuffix s suffix ++ suffix := by
  cases hs : HasSuffix s suffix
  · left; rw [trimSuffix_of_not s suffix hs]
  · right
    obtain ⟨p, rfl⟩ := (hasSuffix_iff _ _).1 hs
    rw [trimSuffix_append]

/-- The shape of `extractRecordName` when the normalized FQDN is `P` followed
by the normalized zone. -/
theorem extractRecordName_of_append (fqdn zone P : Str)
    (h : TrimSuffix fqdn ".".toList = P ++ TrimSuffix zone ".".toList) :
    extractRecordName fqdn zone = TrimSuffix P ".".toList := by
  unfold extractRecordName
  simp only [h, hasSuffix_append, if_true, take_append_sub]

theorem extractRecordName_of_not (fqdn zone : Str)
    (h : HasSuffix (TrimSuffix fqdn ".".toList) (TrimSuffix zone ".".toList) = false) :
    extractRecordName fqdn zone = TrimSuffix fqdn ".".toList := by
  unfold extractRecordName
  simp only [h, Bool.false_eq_true, if_false]

theorem suffix_iff_hasSuffix (s suffix : Str) : suffix <:+ s ↔ HasSuffix s suffix = true := by
  rw [hasSuffix_iff]
  constructor
  · rintro ⟨p, hp⟩
    exact ⟨p, hp.symm⟩
  · rintro ⟨p, hp⟩
    exact ⟨p, hp.symm⟩

theorem getLast?_append_dot (p : Str) : (p ++ ".".toList).getLast? = some '.' := by
  simp

/-! ## The record name -/

/-- C1: for every zone `Z` and every non-empty label `L` that does not end in
a dot, `extractRecordName (L + "." + Z) Z` is exactly `L`; `Z` may be empty
and may itself end in a dot. -/
theorem extractRecordName_label_dot_zone (Z L : Str) (_hne : L ≠ [])
    (hdot : L.getLast? ≠ some '.') :
    extractRecordName (L ++ ".".toList ++ Z) Z = L := by
  have hL : TrimSuffix L ".".toList = L := trimSuffix_dot_of_getLast L hdot
  have hLd : TrimSuffix (L ++ ".".toList) ".".toList = L := trimSuffix_append L _
  cases hZ : HasSuffix Z ".".toList
  · -- the zone does not end in a dot
    have hz : TrimSuffix Z ".".toList = Z := trimSuffix_of_not Z _ hZ
    cases Z with
    | nil =>
      rw [extractRecordName_of_append (L ++ ".".toList ++ []) [] L, hL]
      rw [hz, List.append_nil, List.append_nil, hLd]
    | cons a t =>
      rw [extractRecordName_of_append (L ++ ".".toList ++ a :: t) (a :: t) (L ++ ".".toList),
        hLd]
      rw [hz]
      apply trimSuffix_of_not
      cases hs : HasSuffix (L ++ ".".toList ++ a :: t) ".".toList
      · rfl
      · have h1 := (hasSuffix_dot_iff _).1 hs
        rw [List.getLast?_append_of_ne_nil _ (List.cons_ne_nil a t)] at h1
        rw [(hasSuffix_dot_iff _).2 h1] at hZ
        exact absurd hZ (by decide)
  · -- the zone ends in a dot
    obtain ⟨Z', rfl⟩ := (hasSuffix_iff _ _).1 hZ
    rw [extractRecordName_of_append _ _ (L ++ ".".toList), hLd]
    rw [trimSuffix_append, ← List.append_assoc, trimSuffix_append]

/-- The witness of C1 given in the specification. -/
theorem extractRecordName_label_dot_zone_witness :
    extractRecordName "_acme-challenge.example.com".toList "example.com".toList
      = "_acme-challenge".toList :=
  extractRecordName_label_dot_zone "example.com".toList "_acme-challenge".toList
    (by decide) (by decide)

/-- C2, as stated, fails: for `fqdn = "a..example.com"` and
`zone = "example.com"` the normalized FQDN ends with the normalized zone and
the returned label is `"a."`, which ends with the character `.`. -/
theorem extractRecordName_trailing_dot_counterexample :
    HasSuffix (TrimSuffix "a..example.com".toList ".".toList)
        (TrimSuffix "example.com".toList ".".toList) = true
      ∧ extractRecordName "a..example.com".toList "example.com".toList = "a.".toList
      ∧ (extractRecordName "a..example.com".toList "example.com".toList).getLast?
          = some '.' := by
  decide

/-- C2, amended: when the normalized FQDN ends with the normalized zone, it is
some `P` followed by the normalized zone, and the returned label is `P` with
one trailing dot removed when `P` has one (the label is `P` or `P` is the
label followed by a dot); the label ends with `.` exactly when `P` ends with
two dots. -/
theorem extractRecordName_strips_zone (fqdn zone : Str)
    (h : TrimSuffix zone ".".toList <:+ TrimSuffix fqdn ".".toList) :
    ∃ P : Str, TrimSuffix fqdn ".".toList = P ++ TrimSuffix zone ".".toList
      ∧ extractRecordName fqdn zone = TrimSuffix P ".".toList
      ∧ (P = extractRecordName fqdn zone ∨ P = extractRecordName fqdn zone ++ ".".toList)
      ∧ ((extractRecordName fqdn zone).getLast? = some '.' ↔ ∃ Q : Str, P = Q ++ "..".toList) := by
  obtain ⟨P, hP⟩ := h
  have hE := extractRecordName_of_append fqdn zone P hP.symm
  refine ⟨P, hP.symm, hE, ?_, ?_⟩
  · rw [hE]
    exact trimSuffix_cases P _
  · rw [hE]
    cases hs : HasSuffix P ".".toList
    · rw [trimSuffix_of_not P _ hs]
      have hlast : ¬ P.getLast? = some '.' := by
        intro hl
        rw [(hasSuffix_dot_iff P).2 hl] at hs
        exact absurd hs (by decide)
      constructor
      · intro hl
        exact absurd hl hlast
      · rintro ⟨Q, rfl⟩
        exact absurd (by simp) hlast
    · obtain ⟨E, rfl⟩ := (hasSuffix_iff _ _).1 hs
      rw [trimSuffix_append]
      constructor
      · intro hl
        obtain ⟨Q, hQ⟩ := (hasSuffix_iff _ _).1 ((hasSuffix_dot_iff E).2 hl)
        exact ⟨Q, by rw [hQ, List.append_assoc]; rfl⟩
      · rintro ⟨Q, hQ⟩
        have hQ' : E ++ ".".toList = (Q ++ ".".toList) ++ ".".toList := by
          rw [hQ, List.append_assoc]; rfl
        rw [List.append_cancel_right hQ']
        exact getLast?_append_dot Q

/-- A run of C2 as amended, at the input that refutes the original. -/
theorem extractRecordName_strips_zone_witness :
    ∃ P : Str, TrimSuffix "a..example.com".toList ".".toList
        = P ++ TrimSuffix "example.com".toList ".".toList
      ∧ extractRecordName "a..example.com".toList "example.com".toList
        = TrimSuffix P ".".toList
      ∧ (P = extractRecordName "a..example.com".toList "example.com".toList
        ∨ P = extractRecordName "a..example.com".toList "example.com".toList ++ ".".toList)
      ∧ ((extractRecordName "a..example.com".toList "example.com".toList).getLast? = some '.'
        ↔ ∃ Q : Str, P = Q ++ "..".toList) :=
  extractRecordName_strips_zone "a..example.com".toList "example.com".toList
    ⟨"a..".toList, by decide⟩

/-- C3: when the FQDN with one trailing dot removed does not end with the zone
with one trailing dot removed, `extractRecordName` returns the FQDN with that
one trailing dot removed and nothing else changed. -/
theorem extractRecordName_fallback (fqdn zone : Str)
    (h : ¬ TrimSuffix zone ".".toList <:+ TrimSuffix fqdn ".".toList) :
    extractRecordName fqdn zone = TrimSuffix fqdn ".".toList
      ∧ (fqdn = extractRecordName fqdn zone ++ ".".toList
        ∨ (fqdn = extractRecordName fqdn zone ∧ fqdn.getLast? ≠ some '.')) := by
  have hE : extractRecordName fqdn zone = TrimSuffix fqdn ".".toList := by
    apply extractRecordName_of_not
    cases hs : HasSuffix (TrimSuffix fqdn ".".toList) (TrimSuffix zone ".".toList)
    · rfl
    · exact absurd ((suffix_iff_hasSuffix _ _).2 hs) h
  refine ⟨hE, ?_⟩
  rw [hE]
  cases hs : HasSuffix fqdn ".".toList
  · right
    refine ⟨(trimSuffix_of_not fqdn _ hs).symm, ?_⟩
    intro hl
    rw [(hasSuffix_dot_iff fqdn).2 hl] at hs
    exact absurd hs (by decide)
  · left
    obtain ⟨p, rfl⟩ := (hasSuffix_iff _ _).1 hs
    rw [trimSuffix_append]

/-- A run of C3: `other.org.` is not inside the zone `example.com`. -/
theorem extractRecordName_fallback_witness :
    extractRecordName "other.org.".toList "example.com".toList
        = TrimSuffix "other.org.".toList ".".toList
      ∧ ("other.org.".toList
          = extractRecordName "other.org.".toList "example.com".toList ++ ".".toList
        ∨ ("other.org.".toList = extractRecordName "other.org.".toList "example.com".toList
          ∧ "other.org.".toList.getLast? ≠ some '.')) :=
  extractRecordName_fallback "other.org.".toList "example.com".toList
    (by rw [suffix_iff_hasSuffix]; decide)

/-- C10, as stated, fails: for `fqdn = "notexample.com"` and
`zone = "example.com"` the normalized zone is non-empty, the returned label
`"not"` is non-empty and differs from the normalized FQDN, and the normalized
FQDN is not `"not" + "." + "example.com"`. -/
theorem extractRecordName_boundary_counterexample :
    TrimSuffix "example.com".toList ".".toList ≠ []
      ∧ extractRecordName "notexample.com".toList "example.com".toList = "not".toList
      ∧ extractRecordName "notexample.com".toList "example.com".toList ≠ []
      ∧ extractRecordName "notexample.com".toList "example.com".toList
          ≠ TrimSuffix "notexample.com".toList ".".toList
      ∧ TrimSuffix "notexample.com".toList ".".toList
          ≠ extractRecordName "notexample.com".toList "example.com".toList ++ ".".toList
            ++ TrimSuffix "example.com".toList ".".toList := by
  decide

/-- C10, amended: the zone is stripped as a plain suffix of the string.  For
every FQDN and every zone whose normalized form is non-empty, if
`extractRecordName` returns a non-empty label `L` different from the
normalized FQDN, then the normalized FQDN is `L + "." + zone` or `L + zone`
(zone normalized). -/
theorem extractRecordName_suffix_only (fqdn zone : Str)
    (_hz : TrimSuffix zone ".".toList ≠ [])
    (_hne : extractRecordName fqdn zone ≠ [])
    (hdiff : extractRecordName fqdn zone ≠ TrimSuffix fqdn ".".toList) :
    TrimSuffix fqdn ".".toList
        = extractRecordName fqdn zone ++ ".".toList ++ TrimSuffix zone ".".toList
      ∨ TrimSuffix fqdn ".".toList
        = extractRecordName fqdn zone ++ TrimSuffix zone ".".toList := by
  cases hs : HasSuffix (TrimSuffix fqdn ".".toList) (TrimSuffix zone ".".toList)
  · exact absurd (extractRecordName_of_not fqdn zone hs) hdiff
  · obtain ⟨P, hP⟩ := (hasSuffix_iff _ _).1 hs
    rw [extractRecordName_of_append fqdn zone P hP, hP]
    rcases trimSuffix_cases P ".".toList with h | h
    · right
      rw [← h]
    · left
      rw [← h]

/-- A run of C10 as amended, at the input that refutes the original. -/
theorem extractRecordName_suffix_only_witness :
    TrimSuffix "notexample.com".toList ".".toList
        = extractRecordName "notexample.com".toList "example.com".toList ++ ".".toList
          ++ TrimSuffix "example.com".toList ".".toList
      ∨ TrimSuffix "notexample.com".toList ".".toList
        = extractRecordName "notexample.com".toList "example.com".toList
          ++ TrimSuffix "example.com".toList ".".toList :=
  extractRecordName_suffix_only "notexample.com".toList "example.com".toList
    (by decide) (by decide) (by decide)

/-! ## Facts about the request path -/

/-- The request that `callDnsApi` hands to the transport: none when the
request cannot be constructed, else the one with the two headers set. -/
theorem callDnsApi_sent (env : Env) (url method : Str) (body : Bytes) (config : Config) :
    (callDnsApi env url method body config).sent
      = match env.NewRequest method url with
        | some _ => []
        | none =>
          [{ Method := method, URL := url,
             Header := [("Content-Type".toList, "application/json".toList),
               ("Authorization".toList, config.ApiKey ++ ":".toList ++ config.ApiSecret)],
             Body := body }] := by
  unfold callDnsApi
  cases hn : env.NewRequest method url with
  | some e => rfl
  | none =>
    simp only []
    split
    · rfl
    · split <;> rfl

/-- Function `callDnsApi` never panics; it ends the process only when a response was
delivered whose body fails to close. -/
theorem callDnsApi_outcome (env : Env) (url method : Str) (body : Bytes) (config : Config) :
    (callDnsApi env url method body config).outcome ≠ .panicked
      ∧ ((∀ req resp, env.Do req = .ok resp → resp.CloseErr = none) →
          (callDnsApi env url method body config).outcome ≠ .exited) := by
  unfold callDnsApi
  dsimp only
  split
  · simp
  · split
    · simp
    · rename_i resp hdo
      constructor
      · split <;> split <;> simp
      · intro hclose
        rw [hclose _ resp hdo]
        split <;> simp

theorem clientConfig_congr (env : Env) (c : regeryDNSProviderSolver) (ch ch' : ChallengeRequest)
    (hns : ch'.ResourceNamespace = ch.ResourceNamespace) (hcfg : ch'.Config = ch.Config) :
    clientConfig env c ch' = clientConfig env c ch := by
  unfold clientConfig
  rw [hns, hcfg]

theorem clientConfig_apiUrl (env : Env) (c : regeryDNSProviderSolver) (ch : ChallengeRequest)
    (config : Config) (h : clientConfig env c ch = .returned (config, none)) :
    config.ApiUrl = "https://api.regery.com/v1".toList := by
  unfold clientConfig at h
  dsimp only at h
  repeat' split at h
  all_goals simp only [Outcome.returned.injEq, Prod.mk.injEq, reduceCtorEq, and_false] at h
  rw [← h.1]

/-- Function `clientConfig` never ends the process and panics only through a `nil` client. -/
theorem clientConfig_outcome (env : Env) (c : regeryDNSProviderSolver) (ch : ChallengeRequest) :
    clientConfig env c ch ≠ .exited
      ∧ (c.client ≠ none → clientConfig env c ch ≠ .panicked) := by
  unfold clientConfig
  dsimp only
  repeat' split
  all_goals simp_all

theorem relay_sent (r : Exec (Bytes × error)) : (relay r).sent = r.sent := by
  unfold relay
  split <;> rfl

theorem relay_returned (r : Exec (Bytes × error)) (hp : r.outcome ≠ .panicked)
    (he : r.outcome ≠ .exited) : ∃ e, (relay r).outcome = .returned e := by
  unfold relay
  split
  · exact absurd (by assumption) hp
  · exact absurd (by assumption) he
  · exact ⟨_, rfl⟩
  · exact ⟨_, rfl⟩

theorem Present_resolved (env : Env) (c : regeryDNSProviderSolver) (ch : ChallengeRequest)
    (config : Config) (h : clientConfig env c ch = .returned (config, none)) :
    Present env c ch
      = match env.Marshal [("records".toList,
            [[("type".toList, "TXT".toList),
              ("name".toList,
                extractRecordName ch.ResolvedFQDN (TrimSuffix ch.ResolvedZone ".".toList)),
              ("value".toList, ch.Key),
              ("ttl".toList, "60".toList)]])] with
        | .error err => ⟨[], .returned (some ("failed to marshal payload: ".toList ++ err))⟩
        | .ok body =>
          relay (callDnsApi env
            (config.ApiUrl ++ "/domains/".toList ++ TrimSuffix ch.ResolvedZone ".".toList
              ++ "/records".toList) "POST".toList body config) := by
  unfold Present relay
  rw [h]

theorem CleanUp_resolved (env : Env) (c : regeryDNSProviderSolver) (ch : ChallengeRequest)
    (config : Config) (h : clientConfig env c ch = .returned (config, none)) :
    CleanUp env c ch
      = match env.Marshal [("records".toList,
            [[("type".toList, "TXT".toList),
              ("name".toList,
                extractRecordName ch.ResolvedFQDN (TrimSuffix ch.ResolvedZone ".".toList)),
              ("value".toList, ch.Key)]])] with
        | .error err =>
          ⟨[], .returned (some ("failed to marshal delete payload: ".toList ++ err))⟩
        | .ok body =>
          relay (callDnsApi env
            (config.ApiUrl ++ "/domains/".toList ++ TrimSuffix ch.ResolvedZone ".".toList
              ++ "/records".toList) "DELETE".toList body config) := by
  unfold CleanUp relay
  rw [h]

theorem headerSet_two (v : Str) :
    HeaderSet (HeaderSet [] "Content-Type".toList "application/json".toList)
        "Authorization".toList v
      = [("Content-Type".toList, "application/json".toList), ("Authorization".toList, v)] := by
  rfl

/-- The run of `callDnsApi` once the transport has delivered a response. -/
theorem callDnsApi_delivered (env : Env) (url method : Str) (body : Bytes) (config : Config)
    (resp : Response) (hn : env.NewRequest method url = none)
    (hdo : env.Do
        { Method := method, URL := url,
          Header := [("Content-Type".toList, "application/json".toList),
            ("Authorization".toList, config.ApiKey ++ ":".toList ++ config.ApiSecret)],
          Body := body } = .ok resp) :
    (callDnsApi env url method body config).outcome
      = match resp.CloseErr with
        | some _ => .exited
        | none =>
          if resp.StatusCode = 200 then .returned (resp.Body, none)
          else .returned ([], some ("Error calling API status:".toList ++ resp.Status
            ++ " url: ".toList ++ url ++ " method: ".toList ++ method)) := by
  unfold callDnsApi
  simp only [hn, headerSet_two, hdo]
  split <;> split <;> simp_all

theorem extractRecordName_congr (fqdn fqdn' zone zone' : Str)
    (hf : TrimSuffix fqdn' ".".toList = TrimSuffix fqdn ".".toList)
    (hz : TrimSuffix zone' ".".toList = TrimSuffix zone ".".toList) :
    extractRecordName fqdn' zone' = extractRecordName fqdn zone := by
  unfold extractRecordName
  rw [hf, hz]

theorem Present_congr (env : Env) (c : regeryDNSProviderSolver) (ch ch' : ChallengeRequest)
    (hns : ch'.ResourceNamespace = ch.ResourceNamespace) (hcfg : ch'.Config = ch.Config)
    (hkey : ch'.Key = ch.Key)
    (hz : TrimSuffix ch'.ResolvedZone ".".toList = TrimSuffix ch.ResolvedZone ".".toList)
    (hf : TrimSuffix ch'.ResolvedFQDN ".".toList = TrimSuffix ch.ResolvedFQDN ".".toList) :
    Present env c ch' = Present env c ch := by
  have hname : ∀ z, extractRecordName ch'.ResolvedFQDN z = extractRecordName ch.ResolvedFQDN z :=
    fun z => extractRecordName_congr ch.ResolvedFQDN ch'.ResolvedFQDN z z hf rfl
  unfold Present
  simp only [clientConfig_congr env c ch ch' hns hcfg, hns, hkey, hz, hname]

theorem CleanUp_congr (env : Env) (c : regeryDNSProviderSolver) (ch ch' : ChallengeRequest)
    (hns : ch'.ResourceNamespace = ch.ResourceNamespace) (hcfg : ch'.Config = ch.Config)
    (hkey : ch'.Key = ch.Key)
    (hz : TrimSuffix ch'.ResolvedZone ".".toList = TrimSuffix ch.ResolvedZone ".".toList)
    (hf : TrimSuffix ch'.ResolvedFQDN ".".toList = TrimSuffix ch.ResolvedFQDN ".".toList) :
    CleanUp env c ch' = CleanUp env c ch := by
  have hname : ∀ z, extractRecordName ch'.ResolvedFQDN z = extractRecordName ch.ResolvedFQDN z :=
    fun z => extractRecordName_congr ch.ResolvedFQDN ch'.ResolvedFQDN z z hf rfl
  unfold CleanUp
  simp only [clientConfig_congr env c ch ch' hns hcfg, hns, hkey, hz, hname]

/-! ## Trailing dots -/

/-- C4: trailing dots on zone and FQDN are ignored.  For every zone `Z` and
FQDN `F` that do not end in a dot, every token, solver and world, the run of
`Present` (the requests handed to the transport, with URL, method, headers
and body, and the result) is the same for `(Z, F)`, `(Z + ".", F)`,
`(Z, F + ".")` and `(Z + ".", F + ".")`; the same holds for `CleanUp`. -/
theorem Present_CleanUp_trailing_dots (env : Env) (c : regeryDNSProviderSolver)
    (ch : ChallengeRequest) (Z F : Str)
    (hZ : Z.getLast? ≠ some '.') (hF : F.getLast? ≠ some '.') :
    (Present env c { ch with ResolvedZone := Z ++ ".".toList, ResolvedFQDN := F }
        = Present env c { ch with ResolvedZone := Z, ResolvedFQDN := F }
      ∧ Present env c { ch with ResolvedZone := Z, ResolvedFQDN := F ++ ".".toList }
        = Present env c { ch with ResolvedZone := Z, ResolvedFQDN := F }
      ∧ Present env c { ch with ResolvedZone := Z ++ ".".toList, ResolvedFQDN := F ++ ".".toList }
        = Present env c { ch with ResolvedZone := Z, ResolvedFQDN := F })
    ∧ (CleanUp env c { ch with ResolvedZone := Z ++ ".".toList, ResolvedFQDN := F }
        = CleanUp env c { ch with ResolvedZone := Z, ResolvedFQDN := F }
      ∧ CleanUp env c { ch with ResolvedZone := Z, ResolvedFQDN := F ++ ".".toList }
        = CleanUp env c { ch with ResolvedZone := Z, ResolvedFQDN := F }
      ∧ CleanUp env c { ch with ResolvedZone := Z ++ ".".toList, ResolvedFQDN := F ++ ".".toList }
        = CleanUp env c { ch with ResolvedZone := Z, ResolvedFQDN := F }) := by
  have hz : TrimSuffix (Z ++ ".".toList) ".".toList = TrimSuffix Z ".".toList := by
    rw [trimSuffix_append, trimSuffix_dot_of_getLast Z hZ]
  have hf : TrimSuffix (F ++ ".".toList) ".".toList = TrimSuffix F ".".toList := by
    rw [trimSuffix_append, trimSuffix_dot_of_getLast F hF]
  refine ⟨⟨?_, ?_, ?_⟩, ?_, ?_, ?_⟩
  · exact Present_congr env c _ _ rfl rfl rfl hz rfl
  · exact Present_congr env c _ _ rfl rfl rfl rfl hf
  · exact Present_congr env c _ _ rfl rfl rfl hz hf
  · exact CleanUp_congr env c _ _ rfl rfl rfl hz rfl
  · exact CleanUp_congr env c _ _ rfl rfl rfl rfl hf
  · exact CleanUp_congr env c _ _ rfl rfl rfl hz hf

/-- A run of C4 at the example of the specification: `present("example.com.",
"a.example.com.")` against `present("example.com", "a.example.com")`. -/
theorem Present_CleanUp_trailing_dots_witness :
    Present (worldEnv 200 "200 OK".toList none) solverKS
        (challenge "example.com." "a.example.com.")
      = Present (worldEnv 200 "200 OK".toList none) solverKS
        (challenge "example.com" "a.example.com") :=
  (Present_CleanUp_trailing_dots (worldEnv 200 "200 OK".toList none) solverKS
    (challenge "" "") "example.com".toList "a.example.com".toList
    (by decide) (by decide)).1.2.2

/-! ## The status of the response -/

/-- C5, as stated, fails: the transport delivers a response with status code
200 (and one with status code 500) whose body fails to close, and
`callDnsApi` does not return at all: the deferred function ends the process. -/
theorem callDnsApi_status_counterexample :
    (worldEnv 200 "200 OK".toList (some "close failed".toList)).Do
        { Method := "POST".toList, URL := "u".toList,
          Header := [("Content-Type".toList, "application/json".toList),
            ("Authorization".toList, "K:S".toList)],
          Body := [] }
        = .ok { StatusCode := 200, Status := "200 OK".toList, Body := [],
                CloseErr := some "close failed".toList }
      ∧ callDnsApi (worldEnv 200 "200 OK".toList (some "close failed".toList))
          "u".toList "POST".toList [] ⟨[], "K".toList, "S".toList⟩
        = ⟨[{ Method := "POST".toList, URL := "u".toList,
              Header := [("Content-Type".toList, "application/json".toList),
                ("Authorization".toList, "K:S".toList)],
              Body := [] }], .exited⟩
      ∧ (callDnsApi (worldEnv 500 "500 Internal Server Error".toList
            (some "close failed".toList))
          "u".toList "POST".toList [] ⟨[], "K".toList, "S".toList⟩).outcome = .exited := by
  refine ⟨rfl, ?_, ?_⟩ <;> decide

/-- C5, amended: given that the transport delivers a response whose body
closes without error, `callDnsApi` returns no error if and only if the status
code is exactly 200 (it then returns the body read); for every other status
code it returns the error `"Error calling API status:" + status text +
" url: " + url + " method: " + method`, which contains the status text, the
URL and the method and is the same whatever the response body is. -/
theorem callDnsApi_status (env : Env) (url method : Str) (body : Bytes) (config : Config)
    (req : Request) (resp : Response)
    (hsent : (callDnsApi env url method body config).sent = [req])
    (hdo : env.Do req = .ok resp) (hclose : resp.CloseErr = none) :
    ((∃ b, (callDnsApi env url method body config).outcome = .returned (b, none))
        ↔ resp.StatusCode = 200)
      ∧ (resp.StatusCode = 200 →
          (callDnsApi env url method body config).outcome = .returned (resp.Body, none))
      ∧ (resp.StatusCode ≠ 200 →
          ∃ msg : Str,
            (callDnsApi env url method body config).outcome = .returned ([], some msg)
            ∧ msg = "Error calling API status:".toList ++ resp.Status ++ " url: ".toList ++ url
                ++ " method: ".toList ++ method
            ∧ resp.Status <:+: msg ∧ url <:+: msg ∧ method <:+: msg
            ∧ ∀ body' : Bytes,
                (callDnsApi { env with
                    Do := fun r => (env.Do r).map (fun x => { x with Body := body' }) }
                  url method body config).outcome = .returned ([], some msg)) := by
  rw [callDnsApi_sent] at hsent
  cases hn : env.NewRequest method url with
  | some e => rw [hn] at hsent; simp at hsent
  | none =>
    rw [hn] at hsent
    simp only [List.cons.injEq, and_true] at hsent
    subst hsent
    have hout := callDnsApi_delivered env url method body config resp hn hdo
    rw [hclose] at hout
    simp only at hout
    by_cases h200 : resp.StatusCode = 200
    · rw [if_pos h200] at hout
      refine ⟨⟨fun _ => h200, fun _ => ⟨_, hout⟩⟩, fun _ => hout, fun hne => absurd h200 hne⟩
    · rw [if_neg h200] at hout
      refine ⟨⟨?_, fun h => absurd h h200⟩, fun h => absurd h h200, fun _ => ⟨_, hout, rfl, ?_, ?_, ?_, ?_⟩⟩
      · rintro ⟨b, hb⟩
        rw [hout] at hb
        simp at hb
      · exact ⟨"Error calling API status:".toList, " url: ".toList ++ url
          ++ " method: ".toList ++ method, by simp⟩
      · exact ⟨"Error calling API status:".toList ++ resp.Status ++ " url: ".toList,
          " method: ".toList ++ method, by simp⟩
      · exact ⟨"Error calling API status:".toList ++ resp.Status ++ " url: ".toList ++ url
          ++ " method: ".toList, [], by simp⟩
      · intro body'
        have hdo' : ({ env with
            Do := fun r => (env.Do r).map (fun x => { x with Body := body' }) } : Env).Do
              { Method := method, URL := url,
                Header := [("Content-Type".toList, "application/json".toList),
                  ("Authorization".toList, config.ApiKey ++ ":".toList ++ config.ApiSecret)],
                Body := body }
            = .ok { resp with Body := body' } := by
          simp only [hdo]
          rfl
        have hout' := callDnsApi_delivered
          { env with Do := fun r => (env.Do r).map (fun x => { x with Body := body' }) }
          url method body config _ hn hdo'
        simp only [hclose, if_neg h200] at hout'
        exact hout'

/-- A run of C5 as amended: status `201 Created` is an error. -/
theorem callDnsApi_status_witness :
    ∃ msg : Str,
      (callDnsApi (worldEnv 201 "201 Created".toList none) "u".toList "POST".toList []
          ⟨[], "K".toList, "S".toList⟩).outcome = .returned ([], some msg)
      ∧ msg = "Error calling API status:201 Created url: u method: POST".toList :=
  have h := (callDnsApi_status (worldEnv 201 "201 Created".toList none) "u".toList
    "POST".toList [] ⟨[], "K".toList, "S".toList⟩
    { Method := "POST".toList, URL := "u".toList,
      Header := [("Content-Type".toList, "application/json".toList),
        ("Authorization".toList, "K:S".toList)],
      Body := [] }
    { StatusCode := 201, Status := "201 Created".toList, Body := [], CloseErr := none }
    (by decide) rfl rfl).2.2 (by decide)
  h.elim fun msg hm => ⟨msg, hm.1, hm.2.1.trans (by decide)⟩

/-! ## Credentials -/

/-- C6: for every secret data map `D` returned by a successful secret lookup,
with a config that decodes: if `D` has no entry `api-key`, `clientConfig`
fails with an error whose message names `api-key` (whether or not
`api-secret` is there); otherwise, if `D` has no entry `api-secret`, it fails
with an error whose message names `api-secret`; otherwise it succeeds and
returns `Config{ApiUrl: "https://api.regery.com/v1", ApiKey: D["api-key"],
ApiSecret: D["api-secret"]}`, also when an entry is present but empty. -/
theorem clientConfig_secret_fields (env : Env) (c : regeryDNSProviderSolver)
    (ch : ChallengeRequest) (cfg : regeryDNSProviderConfig) (client : Clientset)
    (D : SecretData)
    (hcfg : loadConfig env ch.Config = (cfg, none))
    (hclient : c.client = some client)
    (hget : client.SecretsGet ch.ResourceNamespace cfg.SecretRef = .ok D) :
    (D "api-key".toList = none →
        ∃ (config : Config) (msg : Str),
          clientConfig env c ch = .returned (config, some msg)
          ∧ "api-key".toList <:+: msg)
      ∧ (∀ k : Bytes, D "api-key".toList = some k → D "api-secret".toList = none →
        ∃ (config : Config) (msg : Str),
          clientConfig env c ch = .returned (config, some msg)
          ∧ "api-secret".toList <:+: msg)
      ∧ (∀ k s : Bytes, D "api-key".toList = some k → D "api-secret".toList = some s →
        clientConfig env c ch
          = .returned ({ ApiUrl := "https://api.regery.com/v1".toList, ApiKey := k,
                         ApiSecret := s }, none)) := by
  refine ⟨?_, ?_, ?_⟩
  · intro hk
    have h : clientConfig env c ch
        = .returned ({ ApiUrl := "https://api.regery.com/v1".toList, ApiKey := [],
                       ApiSecret := [] },
            some ("unable to get api-key from secret `".toList ++ cfg.SecretRef ++ "/".toList
              ++ ch.ResourceNamespace ++ "`; ".toList ++ ("key ".toList
                ++ env.Quote "api-key".toList ++ " not found in secret data".toList))) := by
      unfold clientConfig
      simp only [hcfg, hclient, hget, stringFromSecretData, hk]
    exact ⟨_, _, h, "unable to get ".toList, " from secret `".toList ++ cfg.SecretRef
      ++ "/".toList ++ ch.ResourceNamespace ++ "`; ".toList ++ ("key ".toList
        ++ env.Quote "api-key".toList ++ " not found in secret data".toList), by simp⟩
  · intro k hk hs
    have h : clientConfig env c ch
        = .returned ({ ApiUrl := "https://api.regery.com/v1".toList, ApiKey := k,
                       ApiSecret := [] },
            some ("unable to get api-secret from secret `".toList ++ cfg.SecretRef
              ++ "/".toList ++ ch.ResourceNamespace ++ "`; ".toList ++ ("key ".toList
                ++ env.Quote "api-secret".toList ++ " not found in secret data".toList))) := by
      unfold clientConfig
      simp only [hcfg, hclient, hget, stringFromSecretData, hk, hs]
    exact ⟨_, _, h, "unable to get ".toList, " from secret `".toList ++ cfg.SecretRef
      ++ "/".toList ++ ch.ResourceNamespace ++ "`; ".toList ++ ("key ".toList
        ++ env.Quote "api-secret".toList ++ " not found in secret data".toList), by simp⟩
  · intro k s hk hs
    unfold clientConfig
    simp only [hcfg, hclient, hget, stringFromSecretData, hk, hs]

/-- A run of C6: the secret with `api-key = K` and `api-secret = S`. -/
theorem clientConfig_secret_fields_witness :
    clientConfig (worldEnv 200 "200 OK".toList none) solverKS
        (challenge "example.com" "_acme-challenge.example.com")
      = .returned ({ ApiUrl := "https://api.regery.com/v1".toList, ApiKey := "K".toList,
                     ApiSecret := "S".toList }, none) :=
  (clientConfig_secret_fields (worldEnv 200 "200 OK".toList none) solverKS
    (challenge "example.com" "_acme-challenge.example.com") { SecretRef := [] }
    { SecretsGet := fun _ _ => .ok secretKS } secretKS rfl rfl rfl).2.2
    "K".toList "S".toList (by decide) (by decide)

theorem Present_unresolved (env : Env) (c : regeryDNSProviderSolver) (ch : ChallengeRequest)
    (config : Config) (err : Str) (h : clientConfig env c ch = .returned (config, some err)) :
    Present env c ch
      = ⟨[], .returned (some ("unable to get secret `".toList ++ ch.ResourceNamespace
          ++ "`; ".toList ++ err))⟩ := by
  unfold Present
  rw [h]

theorem CleanUp_unresolved (env : Env) (c : regeryDNSProviderSolver) (ch : ChallengeRequest)
    (config : Config) (err : Str) (h : clientConfig env c ch = .returned (config, some err)) :
    CleanUp env c ch
      = ⟨[], .returned (some ("unable to get secret `".toList ++ ch.ResourceNamespace
          ++ "`; ".toList ++ err))⟩ := by
  unfold CleanUp
  rw [h]

/-- Trimming the zone before `extractRecordName` changes nothing unless the
zone ends in two dots. -/
theorem extractRecordName_trimmed_zone (fqdn zone : Str) (h : ¬ "..".toList <:+ zone) :
    extractRecordName fqdn (TrimSuffix zone ".".toList) = extractRecordName fqdn zone := by
  apply extractRecordName_congr _ _ _ _ rfl
  cases hs : HasSuffix zone ".".toList
  · rw [trimSuffix_of_not zone _ hs, trimSuffix_of_not zone _ hs]
  · obtain ⟨t, rfl⟩ := (hasSuffix_iff _ _).1 hs
    rw [trimSuffix_append]
    apply trimSuffix_of_not
    cases ht : HasSuffix t ".".toList
    · rfl
    · obtain ⟨u, rfl⟩ := (hasSuffix_iff _ _).1 ht
      exact absurd ⟨u, by rw [List.append_assoc]; rfl⟩ h

/-! ## The requests of `Present` and `CleanUp` -/

/-- C7, as stated, fails: for the zone `example.com..` and the FQDN
`a.example.com` the record name that `Present` puts in the body is `a`
(computed from the zone with one trailing dot removed), while
`extractRecordName` of the FQDN and the zone is `a.example.com`. -/
theorem Present_request_counterexample :
    (Present (worldEnv 200 "200 OK".toList none) solverKS
        (challenge "example.com.." "a.example.com")).sent
      = [{ Method := "POST".toList,
           URL := "https://api.regery.com/v1/domains/example.com./records".toList,
           Header := [("Content-Type".toList, "application/json".toList),
             ("Authorization".toList, "K:S".toList)],
           Body := renderPayload [("records".toList,
             [[("type".toList, "TXT".toList), ("name".toList, "a".toList),
               ("value".toList, "abc123".toList), ("ttl".toList, "60".toList)]])] }]
      ∧ extractRecordName "a.example.com".toList "example.com..".toList
          = "a.example.com".toList
      ∧ renderPayload [("records".toList,
          [[("type".toList, "TXT".toList), ("name".toList, "a".toList),
            ("value".toList, "abc123".toList), ("ttl".toList, "60".toList)]])]
        ≠ renderPayload [("records".toList,
          [[("type".toList, "TXT".toList),
            ("name".toList, extractRecordName "a.example.com".toList "example.com..".toList),
            ("value".toList, "abc123".toList), ("ttl".toList, "60".toList)]])] := by
  decide

/-- C7, amended: for every challenge (zone, FQDN, token) and resolved
credentials (key, secret), every request `Present` hands to the transport has
method `POST`, URL `"https://api.regery.com/v1/domains/" + domain +
"/records"` where `domain` is the zone with one trailing dot removed, exactly
the headers `Content-Type = "application/json"` and `Authorization = key +
":" + secret`, and as body the `json.Marshal` of the object with the one
member `records` holding an array of exactly one object with exactly the
members `type = "TXT"`, `name = extractRecordName(FQDN, domain)`,
`value = token` and `ttl = "60"`.  There is at most one such request, and
exactly one when the payload is encoded and the request is constructed.  The
name is `extractRecordName(FQDN, zone)` unless the zone ends in two dots. -/
theorem Present_request (env : Env) (c : regeryDNSProviderSolver) (ch : ChallengeRequest)
    (config : Config) (h : clientConfig env c ch = .returned (config, none)) :
    (∀ r ∈ (Present env c ch).sent,
        r.Method = "POST".toList
        ∧ r.URL = "https://api.regery.com/v1/domains/".toList
            ++ TrimSuffix ch.ResolvedZone ".".toList ++ "/records".toList
        ∧ r.Header = [("Content-Type".toList, "application/json".toList),
            ("Authorization".toList, config.ApiKey ++ ":".toList ++ config.ApiSecret)]
        ∧ env.Marshal [("records".toList,
            [[("type".toList, "TXT".toList),
              ("name".toList,
                extractRecordName ch.ResolvedFQDN (TrimSuffix ch.ResolvedZone ".".toList)),
              ("value".toList, ch.Key),
              ("ttl".toList, "60".toList)]])] = .ok r.Body)
      ∧ (Present env c ch).sent.length ≤ 1
      ∧ (∀ body : Bytes,
          env.Marshal [("records".toList,
            [[("type".toList, "TXT".toList),
              ("name".toList,
                extractRecordName ch.ResolvedFQDN (TrimSuffix ch.ResolvedZone ".".toList)),
              ("value".toList, ch.Key),
              ("ttl".toList, "60".toList)]])] = .ok body →
          env.NewRequest "POST".toList ("https://api.regery.com/v1/domains/".toList
            ++ TrimSuffix ch.ResolvedZone ".".toList ++ "/records".toList) = none →
          (Present env c ch).sent
            = [{ Method := "POST".toList,
                 URL := "https://api.regery.com/v1/domains/".toList
                   ++ TrimSuffix ch.ResolvedZone ".".toList ++ "/records".toList,
                 Header := [("Content-Type".toList, "application/json".toList),
                   ("Authorization".toList, config.ApiKey ++ ":".toList ++ config.ApiSecret)],
                 Body := body }])
      ∧ (¬ "..".toList <:+ ch.ResolvedZone →
          extractRecordName ch.ResolvedFQDN (TrimSuffix ch.ResolvedZone ".".toList)
            = extractRecordName ch.ResolvedFQDN ch.ResolvedZone) := by
  have hurl : config.ApiUrl ++ "/domains/".toList
      = "https://api.regery.com/v1/domains/".toList := by
    rw [clientConfig_apiUrl env c ch config h]; rfl
  have hP := Present_resolved env c ch config h
  rw [hurl] at hP
  refine ⟨?_, ?_, ?_, extractRecordName_trimmed_zone _ _⟩
  · intro r hr
    rw [hP] at hr
    split at hr
    · simp at hr
    · rename_i body hm
      rw [relay_sent, callDnsApi_sent] at hr
      split at hr
      · simp at hr
      · simp only [List.mem_singleton] at hr
        subst hr
        exact ⟨rfl, rfl, rfl, hm⟩
  · rw [hP]
    split
    · simp
    · rw [relay_sent, callDnsApi_sent]
      split <;> simp
  · intro body hm hn
    rw [hP, hm]
    simp only []
    rw [relay_sent, callDnsApi_sent, hn]

/-- The witness of C7 given in the specification: zone `example.com`, FQDN
`_acme-challenge.example.com`, token `abc123`, key `K`, secret `S`. -/
theorem Present_request_witness :
    (Present (worldEnv 200 "200 OK".toList none) solverKS
        (challenge "example.com" "_acme-challenge.example.com")).sent
      = [{ Method := "POST".toList,
           URL := "https://api.regery.com/v1/domains/example.com/records".toList,
           Header := [("Content-Type".toList, "application/json".toList),
             ("Authorization".toList, "K:S".toList)],
           Body := renderPayload [("records".toList,
             [[("type".toList, "TXT".toList), ("name".toList, "_acme-challenge".toList),
               ("value".toList, "abc123".toList), ("ttl".toList, "60".toList)]])] }] :=
  ((Present_request (worldEnv 200 "200 OK".toList none) solverKS
    (challenge "example.com" "_acme-challenge.example.com")
    { ApiUrl := "https://api.regery.com/v1".toList, ApiKey := "K".toList,
      ApiSecret := "S".toList } (by decide)).2.2.1 _ rfl rfl).trans (by decide)

/-- C8: for every challenge and resolved credentials, the request `CleanUp`
builds has the same URL and the same headers as the request `Present` builds
for that challenge, and its body encodes a record with the same type, name
and value; it differs only in the method, `DELETE` instead of `POST`, and in
its record having no `ttl` member.  Each of the two sends exactly one request
when its payload is encoded and its request is constructed. -/
theorem CleanUp_request_matches_Present (env : Env) (c : regeryDNSProviderSolver)
    (ch : ChallengeRequest) (config : Config)
    (h : clientConfig env c ch = .returned (config, none)) :
    (∀ rc ∈ (CleanUp env c ch).sent, ∀ rp ∈ (Present env c ch).sent,
        rp.Method = "POST".toList ∧ rc.Method = "DELETE".toList
        ∧ rc.URL = rp.URL ∧ rc.Header = rp.Header
        ∧ ∃ name : Str,
            env.Marshal [("records".toList,
              [[("type".toList, "TXT".toList), ("name".toList, name),
                ("value".toList, ch.Key), ("ttl".toList, "60".toList)]])] = .ok rp.Body
            ∧ env.Marshal [("records".toList,
              [[("type".toList, "TXT".toList), ("name".toList, name),
                ("value".toList, ch.Key)]])] = .ok rc.Body)
      ∧ (∀ bodyP bodyC : Bytes,
          env.Marshal [("records".toList,
            [[("type".toList, "TXT".toList),
              ("name".toList,
                extractRecordName ch.ResolvedFQDN (TrimSuffix ch.ResolvedZone ".".toList)),
              ("value".toList, ch.Key), ("ttl".toList, "60".toList)]])] = .ok bodyP →
          env.Marshal [("records".toList,
            [[("type".toList, "TXT".toList),
              ("name".toList,
                extractRecordName ch.ResolvedFQDN (TrimSuffix ch.ResolvedZone ".".toList)),
              ("value".toList, ch.Key)]])] = .ok bodyC →
          env.NewRequest "POST".toList (config.ApiUrl ++ "/domains/".toList
            ++ TrimSuffix ch.ResolvedZone ".".toList ++ "/records".toList) = none →
          env.NewRequest "DELETE".toList (config.ApiUrl ++ "/domains/".toList
            ++ TrimSuffix ch.ResolvedZone ".".toList ++ "/records".toList) = none →
          (Present env c ch).sent
              = [{ Method := "POST".toList,
                   URL := config.ApiUrl ++ "/domains/".toList
                     ++ TrimSuffix ch.ResolvedZone ".".toList ++ "/records".toList,
                   Header := [("Content-Type".toList, "application/json".toList),
                     ("Authorization".toList, config.ApiKey ++ ":".toList ++ config.ApiSecret)],
                   Body := bodyP }]
            ∧ (CleanUp env c ch).sent
              = [{ Method := "DELETE".toList,
                   URL := config.ApiUrl ++ "/domains/".toList
                     ++ TrimSuffix ch.ResolvedZone ".".toList ++ "/records".toList,
                   Header := [("Content-Type".toList, "application/json".toList),
                     ("Authorization".toList, config.ApiKey ++ ":".toList ++ config.ApiSecret)],
                   Body := bodyC }]) := by
  have hP := Present_resolved env c ch config h
  have hC := CleanUp_resolved env c ch config h
  constructor
  · intro rc hrc rp hrp
    rw [hC] at hrc
    rw [hP] at hrp
    split at hrc
    · simp at hrc
    · rename_i bodyC hmC
      split at hrp
      · simp at hrp
      · rename_i bodyP hmP
        rw [relay_sent, callDnsApi_sent] at hrc hrp
        split at hrc
        · simp at hrc
        · split at hrp
          · simp at hrp
          · simp only [List.mem_singleton] at hrc hrp
            subst hrc
            subst hrp
            exact ⟨rfl, rfl, rfl, rfl, _, hmP, hmC⟩
  · intro bodyP bodyC hmP hmC hnP hnC
    refine ⟨?_, ?_⟩
    · rw [hP, hmP]
      simp only []
      rw [relay_sent, callDnsApi_sent, hnP]
    · rw [hC, hmC]
      simp only []
      rw [relay_sent, callDnsApi_sent, hnC]

/-- A run of C8 at the scenario of the specification: `CleanUp` sends the
`DELETE` twin of the `POST` request of `Present`. -/
theorem CleanUp_request_matches_Present_witness :
    (CleanUp (worldEnv 200 "200 OK".toList none) solverKS
        (challenge "example.com" "_acme-challenge.example.com")).sent
      = [{ Method := "DELETE".toList,
           URL := "https://api.regery.com/v1/domains/example.com/records".toList,
           Header := [("Content-Type".toList, "application/json".toList),
             ("Authorization".toList, "K:S".toList)],
           Body := renderPayload [("records".toList,
             [[("type".toList, "TXT".toList), ("name".toList, "_acme-challenge".toList),
               ("value".toList, "abc123".toList)]])] }] :=
  ((CleanUp_request_matches_Present (worldEnv 200 "200 OK".toList none) solverKS
    (challenge "example.com" "_acme-challenge.example.com")
    { ApiUrl := "https://api.regery.com/v1".toList, ApiKey := "K".toList,
      ApiSecret := "S".toList } (by decide)).2 _ _ rfl rfl rfl rfl).2.trans (by decide)

/-! ## Panics and process exits -/

/-- C9, as stated, fails: with a solver whose client was never initialized
`Present` and `CleanUp` panic, and when the body of the delivered response
fails to close they end the process. -/
theorem Present_CleanUp_return_counterexample :
    (Present (worldEnv 200 "200 OK".toList none) solverNil
        (challenge "example.com" "_acme-challenge.example.com")).outcome = .panicked
      ∧ (CleanUp (worldEnv 200 "200 OK".toList none) solverNil
        (challenge "example.com" "_acme-challenge.example.com")).outcome = .panicked
      ∧ (Present (worldEnv 200 "200 OK".toList (some "close failed".toList)) solverKS
        (challenge "example.com" "_acme-challenge.example.com")).outcome = .exited
      ∧ (CleanUp (worldEnv 200 "200 OK".toList (some "close failed".toList)) solverKS
        (challenge "example.com" "_acme-challenge.example.com")).outcome = .exited := by
  decide

/-- C9, amended: for every challenge request handled by a solver whose
secret-store client was initialized, and every outcome of the secret lookup
and of the HTTP exchange in which the body of a delivered response closes
without error, `Present` and `CleanUp` return either success or an error
value to the caller. -/
theorem Present_CleanUp_return (env : Env) (c : regeryDNSProviderSolver)
    (ch : ChallengeRequest) (hclient : c.client ≠ none)
    (hclose : ∀ req resp, env.Do req = .ok resp → resp.CloseErr = none) :
    (∃ e : error, (Present env c ch).outcome = .returned e)
      ∧ (∃ e : error, (CleanUp env c ch).outcome = .returned e) := by
  have hcc := clientConfig_outcome env c ch
  cases hc : clientConfig env c ch with
  | panicked => exact absurd hc (hcc.2 hclient)
  | exited => exact absurd hc hcc.1
  | returned a =>
    obtain ⟨config, err⟩ := a
    cases err with
    | some e =>
      rw [Present_unresolved env c ch config e hc, CleanUp_unresolved env c ch config e hc]
      exact ⟨⟨_, rfl⟩, ⟨_, rfl⟩⟩
    | none =>
      rw [Present_resolved env c ch config hc, CleanUp_resolved env c ch config hc]
      constructor
      · split
        · exact ⟨_, rfl⟩
        · exact relay_returned _ (callDnsApi_outcome env _ _ _ _).1
            ((callDnsApi_outcome env _ _ _ _).2 hclose)
      · split
        · exact ⟨_, rfl⟩
        · exact relay_returned _ (callDnsApi_outcome env _ _ _ _).1
            ((callDnsApi_outcome env _ _ _ _).2 hclose)

/-- A run of C9 as amended: an initialized solver, and a provider that answers
`500` with a body that closes. -/
theorem Present_CleanUp_return_witness :
    (∃ e : error, (Present (worldEnv 500 "500 Internal Server Error".toList none) solverKS
        (challenge "example.com" "_acme-challenge.example.com")).outcome = .returned e)
      ∧ (∃ e : error, (CleanUp (worldEnv 500 "500 Internal Server Error".toList none) solverKS
        (challenge "example.com" "_acme-challenge.example.com")).outcome = .returned e) :=
  Present_CleanUp_return (worldEnv 500 "500 Internal Server Error".toList none) solverKS
    (challenge "example.com" "_acme-challenge.example.com") (by simp [solverKS])
    (fun _ _ h => by cases h; rfl)

end Regery
